import Mathlib

/-!
Shallow embedding of the TinyLog logging core (`src/tinylog/tinylog.hpp`).

Strings from the C++ side (`std::string`, bytes written to `std::ostream`)
are modelled as `List Char`.  Each external output stream is a growing
byte buffer; the process-wide static state of class `Logger` is the
structure `LogState`, whose `streams` field holds the buffer of every
external stream, indexed by a `Nat` handle.  The registry `loggers`
holds the configured level of every constructed `Logger`, in
construction order (the C++ code stores `Logger*` pointers and reads
`->currentLogLevel`; we store the levels directly).

C++ assertion failures (`assert`, which terminate the process) are
modelled by `Option`: `none` is an assertion failure.

Build-time configuration is passed explicitly: `ndebugMode` selects the
release (`NDEBUG`) default level, `sepLines` is
`TINYLOG_EXTRAS_ON_SEPARATE_LINES`.  The wall-clock timestamp produced
by `getIso8601Timestamp` is passed to `log` as an explicit `ts`
argument, since it is an input from the environment.
-/

namespace TinyLog

/-- Shorthand: the character list of a string literal. -/
def str (s : String) : List Char := s.toList

/-- The character `"` (written by code point to keep sources plain). -/
def quoteChar : Char := Char.ofNat 34

/-- The character `'`. -/
def apostropheChar : Char := Char.ofNat 39

/-- The character `\`. -/
def backslashChar : Char := Char.ofNat 92

/-- The character `{`. -/
def lbraceChar : Char := Char.ofNat 123

/-- The character `}`. -/
def rbraceChar : Char := Char.ofNat 125

/-- C++ `enum LogLevel : char` from the source: five concrete levels and the
`INHERIT` sentinel. -/
inductive LogLevel where
  | DEBUG
  | INFO
  | WARN
  | ERROR
  | FATAL
  | INHERIT
deriving DecidableEq, Repr

/-- The numeric value of each enumerator (`DEBUG = 0`, …, `FATAL = 4`,
`INHERIT = -1`), as used by the `static_cast<char>` comparison in
`Logger::log`. -/
def LogLevel.enumVal : LogLevel → Int
  | .DEBUG => 0
  | .INFO => 1
  | .WARN => 2
  | .ERROR => 3
  | .FATAL => 4
  | .INHERIT => -1

/-- C++ `getLogLevelName`: the stringified level; with `doPad` the name is
extended with spaces to 5 characters (the source's while-loop appends
one space at a time until the length reaches 5). -/
def getLogLevelName (logLevel : LogLevel) (doPad : Bool) : List Char :=
  let returnString : List Char :=
    match logLevel with
    | .DEBUG => str "DEBUG"
    | .INFO => str "INFO"
    | .WARN => str "WARN"
    | .ERROR => str "ERROR"
    | .FATAL => str "FATAL"
    | .INHERIT => str "INHERIT"
  if doPad then returnString ++ List.replicate (5 - returnString.length) ' '
  else returnString

/-- C++ `TINYLOG_DEFAULT_LOG_LEVEL`: `WARN` in release mode (`NDEBUG`
defined), `INFO` in debug mode, per the macro defaults. -/
def TINYLOG_DEFAULT_LOG_LEVEL (ndebugMode : Bool) : LogLevel :=
  if ndebugMode then .WARN else .INFO

/-- The process-wide static state of class `Logger`, together with the
byte buffers of all external output streams. -/
structure LogState where
  /-- C++ `inline static std::vector<Logger*> loggers` (configured level of
  each constructed instance, construction order). -/
  loggers : List LogLevel
  /-- Buffers of the external `std::ostream` objects, indexed by handle. -/
  streams : List (List Char)
  /-- C++ `inline static std::vector<std::ostream*> stringOutputStreams`. -/
  stringOutputIds : List Nat
  /-- C++ `inline static bool isStringOutputEnabled`. -/
  isStringOutputEnabled : Bool
  /-- C++ `inline static std::vector<std::ostream*> jsonOutputStreams`. -/
  jsonOutputIds : List Nat
  /-- C++ `inline static bool isJsonOutputEnabled`. -/
  isJsonOutputEnabled : Bool
  /-- C++ `inline static long long jsonOutputsCount`. -/
  jsonOutputsCount : Nat
deriving DecidableEq, Repr

/-- C++ `*stream << out`: append `out` to the buffer of stream `i`. -/
def writeTo (streams : List (List Char)) (i : Nat) (out : List Char) :
    List (List Char) :=
  streams.set i (streams.getD i [] ++ out)

/-- Write `out` to every stream handle in `ids`, in order (the
`for (std::ostream* s : ...)` loops in the source). -/
def writeAll (streams : List (List Char)) (ids : List Nat) (out : List Char) :
    List (List Char) :=
  ids.foldl (fun st i => writeTo st i out) streams

/-- The walk of `Logger::getLogLevel`, on the registry reversed
(most-recently-constructed first): skip `INHERIT` entries; if the walk
falls off the front of the registry (index 0 was `INHERIT`), the
compiled-in default applies. -/
def resolveFromLast (dflt : LogLevel) : List LogLevel → LogLevel
  | [] => dflt
  | l :: rest => if l = .INHERIT then resolveFromLast dflt rest else l

namespace Logger

/-- C++ `Logger::Logger(LogLevel)`: push the instance onto the registry. -/
def construct (s : LogState) (logLevel : LogLevel) : LogState :=
  { s with loggers := s.loggers ++ [logLevel] }

/-- C++ `Logger::getLogLevel`: start at the last registry index (the
globally last-constructed instance, whichever instance is called);
`assert(currentLoggerIndex >= 0)` fails on an empty registry (`none`).
While the examined level is `INHERIT` move to the previous index,
returning `TINYLOG_DEFAULT_LOG_LEVEL` if index 0 is reached with
`INHERIT`; otherwise return the first non-`INHERIT` level found. -/
def getLogLevel (ndebugMode : Bool) (loggers : List LogLevel) :
    Option LogLevel :=
  if loggers.isEmpty then none
  else some (resolveFromLast (TINYLOG_DEFAULT_LOG_LEVEL ndebugMode) loggers.reverse)

/-- C++ `Logger::escapeString` / the inline copies in `log`: replace every
`"` with `'` (`std::replace`). -/
def escapeString (s : List Char) : List Char :=
  s.map (fun c => if c = quoteChar then apostropheChar else c)

/-- Decimal digits of a `Nat` (fuel-structural so the kernel can
evaluate it; fuel `n + 1` always suffices). -/
def natDigitsAux : Nat → Nat → List Char → List Char
  | 0, _, acc => acc
  | fuel + 1, n, acc =>
    if n < 10 then Char.ofNat (48 + n) :: acc
    else natDigitsAux fuel (n / 10) (Char.ofNat (48 + n % 10) :: acc)

/-- Decimal rendering of a `Nat`. -/
def natChars (n : Nat) : List Char := natDigitsAux (n + 1) n []

/-- C++ `operator<<(std::ostream, int)`: decimal rendering of an `Int`. -/
def intChars (i : Int) : List Char :=
  if i < 0 then str "-" ++ natChars i.natAbs else natChars i.toNat

/-- The extras rendered by the loop in `logToStringOutputStream`: each
extra is preceded by a newline + indent + `"- "` in separate-line mode
or one space in inline mode, and followed by `" ;"`. -/
def textExtras (sepLines : Bool) (logLevelName : List Char)
    (extras : List (List Char)) : List Char :=
  (extras.map (fun extra =>
    (if sepLines then
      str "\n" ++ List.replicate (logLevelName.length + 3) ' ' ++ str "- "
    else str " ") ++ extra ++ str " ;")).flatten

/-- C++ `Logger::logToStringOutputStream`: the full text line written to one
string output stream. -/
def renderTextRecord (sepLines : Bool) (givenLogLevel : LogLevel)
    (showTimestamp : Bool) (ts : List Char) (filePath : List Char)
    (lineNumber : Int) (message : List Char) (extras : List (List Char)) :
    List Char :=
  let logLevelName := getLogLevelName givenLogLevel true
  str "[" ++ logLevelName ++ str "] "
    ++ (if showTimestamp then ts ++ str " - " else [])
    ++ (if filePath ≠ [] then filePath ++ str " " else [])
    ++ (if lineNumber ≠ -1 then str "(line " ++ intChars lineNumber ++ str ") " else [])
    ++ (if filePath ≠ [] ∨ lineNumber ≠ -1 then str "- " else [])
    ++ message
    ++ (if extras ≠ [] then
          str " - EXTRAS " ++ (if sepLines then str ":" else str "- ")
        else [])
    ++ textExtras sepLines logLevelName extras
    ++ str "\n"

/-- The `"\"extra1\",\"extra2\""` item list of the JSON `extras` array:
each extra quoted, a comma after every item except the last
(the `i < extras.size() - 1` test in the source). -/
def quotedItems : List (List Char) → List Char
  | [] => []
  | [e] => str "\"" ++ e ++ str "\""
  | e :: rest => str "\"" ++ e ++ str "\"," ++ quotedItems rest

/-- The JSON object part of `Logger::logToJsonOutputStream` (everything
after the optional leading comma): fields `severity` (unpadded name),
`message`, `timestamp`, and `extras` only when the list is non-empty.
The `showTimestamp` flag is accepted and ignored, as in the source. -/
def renderJsonObj (givenLogLevel : LogLevel) (showTimestamp : Bool)
    (message : List Char) (ts : List Char) (extras : List (List Char)) :
    List Char :=
  str "\x7b\"severity\":\"" ++ getLogLevelName givenLogLevel false ++ str "\","
    ++ str "\"message\":\"" ++ message ++ str "\","
    ++ str "\"timestamp\":\"" ++ ts ++ str "\""
    ++ (if extras ≠ [] then str ",\"extras\":[" ++ quotedItems extras ++ str "]" else [])
    ++ str "\x7d"

/-- C++ `Logger::logToJsonOutputStream`: leading `,` when the shared
emitted-record counter is non-zero, then the JSON object. -/
def renderJsonRecord (count : Nat) (givenLogLevel : LogLevel)
    (showTimestamp : Bool) (message : List Char) (ts : List Char)
    (extras : List (List Char)) : List Char :=
  (if count > 0 then str "," else [])
    ++ renderJsonObj givenLogLevel showTimestamp message ts extras

/-- C++ `Logger::log`: severity gate against `getLogLevel` (assertion
failure = `none` on an empty registry), then the text fan-out, then the
JSON fan-out with quote-escaped copies shared across all JSON streams
and the counter incremented once after the loop. -/
def log (ndebugMode sepLines : Bool) (s : LogState) (givenLogLevel : LogLevel)
    (message : List Char) (extras : List (List Char)) (filePath : List Char)
    (lineNumber : Int) (showTimestamp : Bool) (ts : List Char) :
    Option LogState :=
  match getLogLevel ndebugMode s.loggers with
  | none => none
  | some threshold =>
    if givenLogLevel.enumVal < threshold.enumVal then some s
    else
      let textRec :=
        renderTextRecord sepLines givenLogLevel showTimestamp ts filePath
          lineNumber message extras
      let s1 :=
        if s.isStringOutputEnabled then
          { s with streams := writeAll s.streams s.stringOutputIds textRec }
        else s
      let messageCopy := escapeString message
      let extrasCopy := extras.map escapeString
      let jsonRec :=
        renderJsonRecord s1.jsonOutputsCount givenLogLevel showTimestamp
          messageCopy ts extrasCopy
      let s2 :=
        if s1.isJsonOutputEnabled then
          { s1 with
              streams := writeAll s1.streams s1.jsonOutputIds jsonRec,
              jsonOutputsCount := s1.jsonOutputsCount + 1 }
        else s1
      some s2

/-- C++ `Logger::addStringOutput`: `assert(isStringOutputEnabled)` (`none`
when violated), then push the stream. -/
def addStringOutput (s : LogState) (dest : Nat) : Option LogState :=
  if s.isStringOutputEnabled then
    some { s with stringOutputIds := s.stringOutputIds ++ [dest] }
  else none

/-- C++ `Logger::enableStringOutput`: set the flag, then `addStringOutput`. -/
def enableStringOutput (s : LogState) (dest : Nat) : Option LogState :=
  addStringOutput { s with isStringOutputEnabled := true } dest

/-- C++ `Logger::disableStringOutput`: clear the stream collection and the
flag; nothing is written. -/
def disableStringOutput (s : LogState) : LogState :=
  { s with stringOutputIds := [], isStringOutputEnabled := false }

/-- C++ `Logger::addJsonOutput`: `assert(isJsonOutputEnabled)` (`none` when
violated), push the stream, and write `[` to it. -/
def addJsonOutput (s : LogState) (dest : Nat) : Option LogState :=
  if s.isJsonOutputEnabled then
    some { s with
            jsonOutputIds := s.jsonOutputIds ++ [dest],
            streams := writeTo s.streams dest (str "[") }
  else none

/-- C++ `Logger::enableJsonOutput`: set the flag, reset the counter to 0,
then `addJsonOutput`. -/
def enableJsonOutput (s : LogState) (dest : Nat) : Option LogState :=
  addJsonOutput { s with isJsonOutputEnabled := true, jsonOutputsCount := 0 } dest

/-- C++ `Logger::disableJsonOutput`: write `]` to every registered JSON
stream, clear the collection, clear the flag, reset the counter. -/
def disableJsonOutput (s : LogState) : LogState :=
  { s with
      streams := writeAll s.streams s.jsonOutputIds (str "]"),
      jsonOutputIds := [],
      isJsonOutputEnabled := false,
      jsonOutputsCount := 0 }

/-- C++ `Logger::~Logger`: `disableStringOutput(); disableJsonOutput();` —
run by the destruction of any instance (the sink state is static). The
registry entry of the destroyed instance is not removed, as in the
source. -/
def destruct (s : LogState) : LogState :=
  disableJsonOutput (disableStringOutput s)

end Logger

/-!
A syntax checker for the JSON shape the spec promises for a
two-record stream: `[` object `,` object `]` where each object has the
string fields `severity`, `message`, `timestamp` in that order and an
optional final `extras` field holding an array of strings.  String
literals follow the JSON grammar (contents free of unescaped `"`, `\`
and control characters; the standard escapes are allowed).  The checker
is written from the spec's words, to be compared with what the code
emits; it is fuel-structural so the kernel can run it on concrete
bytes.
-/

/-- Hexadecimal digit, for `\u` escapes. -/
def isHexDigit (c : Char) : Bool :=
  (48 ≤ c.toNat && c.toNat ≤ 57) || (65 ≤ c.toNat && c.toNat ≤ 70)
    || (97 ≤ c.toNat && c.toNat ≤ 102)

/-- Scan the body of a JSON string literal (the opening `"` already
consumed); return the rest after the closing `"`.  JSON rules: raw `"`
closes, raw `\` starts an escape (`"`, `\`, `/`, `b`, `f`, `n`, `r`,
`t`, or `u` + 4 hex digits), control characters below 0x20 are
forbidden.  Fuel `cs.length + 1` always suffices. -/
def scanStr : Nat → List Char → Option (List Char)
  | 0, _ => none
  | fuel + 1, cs =>
    match cs with
    | [] => none
    | c :: rest =>
      if c = quoteChar then some rest
      else if c = backslashChar then
        match rest with
        | [] => none
        | e :: rest2 =>
          if e = quoteChar ∨ e = backslashChar ∨ e = Char.ofNat 47 ∨ e = 'b'
              ∨ e = 'f' ∨ e = 'n' ∨ e = 'r' ∨ e = 't' then
            scanStr fuel rest2
          else if e = 'u' then
            match rest2 with
            | h1 :: h2 :: h3 :: h4 :: rest3 =>
              if isHexDigit h1 && isHexDigit h2 && isHexDigit h3 && isHexDigit h4 then
                scanStr fuel rest3
              else none
            | _ => none
          else none
      else if c.toNat < 32 then none
      else scanStr fuel rest

/-- Consume the exact character sequence `pat` from the front of `cs`. -/
def dropText (pat : List Char) (cs : List Char) : Option (List Char) :=
  match pat, cs with
  | [], rest => some rest
  | p :: ps, c :: rest => if c = p then dropText ps rest else none
  | _ :: _, [] => none

/-- Consume `"name":"` followed by a string-literal body. -/
def scanStrField (name : List Char) (cs : List Char) : Option (List Char) :=
  (dropText (str "\"" ++ name ++ str "\":\"") cs).bind (fun rest =>
    scanStr (rest.length + 1) rest)

/-- After a `[`, consume `"s"` (`,` `"s"`)* `]`: at least one string
item, commas strictly between items.  One unit of fuel per item. -/
def scanItems : Nat → List Char → Option (List Char)
  | 0, _ => none
  | fuel + 1, cs =>
    (dropText (str "\"") cs).bind (fun rest =>
      (scanStr (rest.length + 1) rest).bind (fun r =>
        match r with
        | c :: rest2 =>
          if c = ']' then some rest2
          else if c = ',' then scanItems fuel rest2
          else none
        | [] => none))

/-- Consume one log-record JSON object: `{` then the fields `severity`,
`message`, `timestamp` in that order (string values), then either `}`
or `,"extras":[` string items `]` followed by `}`. -/
def scanObj (cs : List Char) : Option (List Char) :=
  (dropText (str "\x7b") cs).bind (fun c1 =>
    (scanStrField (str "severity") c1).bind (fun c2 =>
      (dropText (str ",") c2).bind (fun c2a =>
        (scanStrField (str "message") c2a).bind (fun c3 =>
          (dropText (str ",") c3).bind (fun c3a =>
            (scanStrField (str "timestamp") c3a).bind (fun c4 =>
              match c4 with
              | [] => none
              | c :: rest =>
                if c = rbraceChar then some rest
                else if c = ',' then
                  (dropText (str "\"extras\":[") rest).bind (fun c5 =>
                    (scanItems (c5.length + 1) c5).bind (fun c6 =>
                      match c6 with
                      | c2 :: rest2 =>
                        if c2 = rbraceChar then some rest2 else none
                      | [] => none))
                else none))))))

/-- The spec's JSON round-trip shape: the whole byte sequence is
`[` object `,` object `]` — a valid JSON array of exactly two
log-record objects, with exactly one comma between them and none after
the second. -/
def isJsonTwoRecordArray (bytes : List Char) : Bool :=
  match (dropText (str "[") bytes).bind (fun c1 =>
      (scanObj c1).bind (fun c2 =>
        (dropText (str ",") c2).bind (fun c3 => scanObj c3))) with
  | none => false
  | some c4 => decide (c4 = str "]")

/-- Characters that may appear raw (unescaped) inside a JSON string
literal: anything except `"`, `\` and control characters below 0x20. -/
def jsonSafe (s : List Char) : Bool :=
  s.all (fun c => (c != quoteChar) && (c != backslashChar) && decide (32 ≤ c.toNat))

/-- Input cleanliness for messages and extras: no backslash and no
control characters (quotes are allowed — the code escapes them away). -/
def noBackslashCtrl (s : List Char) : Bool :=
  s.all (fun c => (c != backslashChar) && decide (32 ≤ c.toNat))

/-- The start state of the C3 counterexample run: one `DEBUG` logger,
one external stream (handle 0), no sinks enabled. -/
def c3CexStart : LogState := LogState.mk [.DEBUG] [[]] [] false [] false 0

/-- The C3 counterexample run: enable JSON output on stream 0, make two
severity-passing `log` calls — the first message is one backslash — and
disable; the result is the bytes that reached stream 0. -/
def c3CexRun : Option (List Char) :=
  (Logger.enableJsonOutput c3CexStart 0).bind (fun s1 =>
    (Logger.log false false s1 .INFO (str "\\") [] [] (-1) true
        (str "2024-01-01T00:00:00Z")).bind (fun s2 =>
      (Logger.log false false s2 .WARN (str "ok") [] [] (-1) true
          (str "2024-01-01T00:00:01Z")).map (fun s3 =>
        (Logger.disableJsonOutput s3).streams.getD 0 [])))

/-! Helper lemmas about stream writes. -/

lemma length_writeTo (st : List (List Char)) (i : Nat) (out : List Char) :
    (writeTo st i out).length = st.length := by
  simp [writeTo]

lemma getD_writeTo_self (st : List (List Char)) (i : Nat) (out : List Char)
    (h : i < st.length) :
    (writeTo st i out).getD i [] = st.getD i [] ++ out := by
  simp [writeTo, List.getD_eq_getElem?_getD, List.getElem?_set_self',
    List.getElem?_eq_getElem h]

lemma getD_writeTo_ne (st : List (List Char)) (i j : Nat) (out : List Char)
    (h : i ≠ j) :
    (writeTo st i out).getD j [] = st.getD j [] := by
  simp [writeTo, List.getD_eq_getElem?_getD, List.getElem?_set_ne h]

lemma length_getD_writeTo_le (st : List (List Char)) (i j : Nat)
    (out : List Char) :
    (st.getD j []).length ≤ ((writeTo st i out).getD j []).length := by
  by_cases hij : i = j
  · subst hij
    by_cases h : i < st.length
    · rw [getD_writeTo_self st i out h]
      simp
    · have hs : st.set i (st.getD i [] ++ out) = st :=
        List.set_eq_of_length_le (by omega)
      show (st.getD i []).length ≤ ((st.set i (st.getD i [] ++ out)).getD i []).length
      rw [hs]
  · rw [getD_writeTo_ne st i j out hij]

lemma writeAll_nil (st : List (List Char)) (out : List Char) :
    writeAll st [] out = st := rfl

lemma writeAll_cons (st : List (List Char)) (a : Nat) (rest : List Nat)
    (out : List Char) :
    writeAll st (a :: rest) out = writeAll (writeTo st a out) rest out := rfl

lemma length_writeAll (st : List (List Char)) (ids : List Nat)
    (out : List Char) : (writeAll st ids out).length = st.length := by
  induction ids generalizing st with
  | nil => rfl
  | cons a rest ih => rw [writeAll_cons, ih, length_writeTo]

lemma getD_writeAll_not_mem (st : List (List Char)) (ids : List Nat)
    (out : List Char) (i : Nat) (h : i ∉ ids) :
    (writeAll st ids out).getD i [] = st.getD i [] := by
  induction ids generalizing st with
  | nil => rfl
  | cons a rest ih =>
    simp only [List.mem_cons, not_or] at h
    rw [writeAll_cons, ih _ h.2, getD_writeTo_ne _ _ _ _ (fun e => h.1 e.symm)]

lemma length_getD_writeAll_le (st : List (List Char)) (ids : List Nat)
    (out : List Char) (j : Nat) :
    (st.getD j []).length ≤ ((writeAll st ids out).getD j []).length := by
  induction ids generalizing st with
  | nil => exact Nat.le_refl _
  | cons a rest ih =>
    rw [writeAll_cons]
    exact Nat.le_trans (length_getD_writeTo_le st a j out) (ih _)

lemma getD_writeAll_count_one (st : List (List Char)) (ids : List Nat)
    (out : List Char) (i : Nat) (hc : ids.count i = 1) (hlen : i < st.length) :
    (writeAll st ids out).getD i [] = st.getD i [] ++ out := by
  induction ids generalizing st with
  | nil => simp at hc
  | cons a rest ih =>
    rw [writeAll_cons]
    by_cases hai : a = i
    · subst hai
      have hcs := List.count_cons_self a rest
      have hnot : a ∉ rest := by
        rw [← List.count_eq_zero]
        omega
      rw [getD_writeAll_not_mem _ _ _ _ hnot, getD_writeTo_self st a out hlen]
    · have hne : (i : Nat) ≠ a := fun e => hai e.symm
      have hcc : (a :: rest).count i = rest.count i := List.count_cons_of_ne hne rest
      rw [ih _ (by omega) (by rw [length_writeTo]; exact hlen),
        getD_writeTo_ne _ _ _ _ hai]

lemma length_getD_writeAll_lt (st : List (List Char)) (ids : List Nat)
    (out : List Char) (i : Nat) (hm : i ∈ ids) (hlen : i < st.length)
    (hout : out ≠ []) :
    (st.getD i []).length < ((writeAll st ids out).getD i []).length := by
  induction ids generalizing st with
  | nil => simp at hm
  | cons a rest ih =>
    rw [writeAll_cons]
    by_cases hai : a = i
    · subst hai
      have h1 : (st.getD a []).length < ((writeTo st a out).getD a []).length := by
        rw [getD_writeTo_self st a out hlen]
        have : 0 < out.length := List.length_pos.mpr hout
        simp; omega
      exact Nat.lt_of_lt_of_le h1 (length_getD_writeAll_le _ rest out a)
    · rcases List.mem_cons.mp hm with h | h
      · exact absurd h.symm hai
      · have h2 := ih (writeTo st a out) h (by rw [length_writeTo]; exact hlen)
        have hmono := length_getD_writeTo_le st a i out
        omega

/-! Helper lemmas about level resolution. -/

lemma resolveFromLast_ne_INHERIT (dflt : LogLevel) (l : List LogLevel)
    (h : dflt ≠ .INHERIT) : resolveFromLast dflt l ≠ .INHERIT := by
  induction l with
  | nil => exact h
  | cons a rest ih =>
    by_cases ha : a = LogLevel.INHERIT
    · simp [resolveFromLast, ha, ih]
    · simp [resolveFromLast, ha]

lemma resolveFromLast_eq_find (dflt : LogLevel) (l : List LogLevel) :
    resolveFromLast dflt l
      = (l.find? (fun x => decide (x ≠ LogLevel.INHERIT))).getD dflt := by
  induction l with
  | nil => rfl
  | cons a rest ih =>
    by_cases ha : a = LogLevel.INHERIT
    · simp [resolveFromLast, List.find?_cons, ha, ih]
    · simp [resolveFromLast, List.find?_cons, ha]

lemma TINYLOG_DEFAULT_LOG_LEVEL_ne_INHERIT (ndebugMode : Bool) :
    TINYLOG_DEFAULT_LOG_LEVEL ndebugMode ≠ .INHERIT := by
  cases ndebugMode <;> simp [TINYLOG_DEFAULT_LOG_LEVEL]

lemma enumVal_nonneg_of_ne_INHERIT (l : LogLevel) (h : l ≠ .INHERIT) :
    0 ≤ l.enumVal := by
  cases l <;> simp_all [LogLevel.enumVal]

/-! Record non-emptiness and the effect of an accepted `log` call. -/
lemma str_lb : str "[" = ['['] := by decide

lemma str_objHead : str "\x7b\"severity\":\"" = lbraceChar :: str "\"severity\":\"" := by decide

lemma renderTextRecord_ne_nil (sepLines : Bool) (lvl : LogLevel) (st : Bool)
    (ts fp : List Char) (ln : Int) (msg : List Char) (ex : List (List Char)) :
    Logger.renderTextRecord sepLines lvl st ts fp ln msg ex ≠ [] := by
  simp only [Logger.renderTextRecord, str_lb, List.cons_append]
  exact List.cons_ne_nil _ _

lemma renderJsonObj_ne_nil (lvl : LogLevel) (st : Bool) (msg ts : List Char)
    (ex : List (List Char)) :
    Logger.renderJsonObj lvl st msg ts ex ≠ [] := by
  simp only [Logger.renderJsonObj, str_objHead, List.cons_append]
  exact List.cons_ne_nil _ _

lemma renderJsonRecord_ne_nil (count : Nat) (lvl : LogLevel) (st : Bool)
    (msg ts : List Char) (ex : List (List Char)) :
    Logger.renderJsonRecord count lvl st msg ts ex ≠ [] := by
  intro h
  exact renderJsonObj_ne_nil lvl st msg ts ex (List.append_eq_nil.mp h).2

lemma log_accepted (ndebugMode sepLines : Bool) (s : LogState)
    (givenLogLevel : LogLevel) (message : List Char) (extras : List (List Char))
    (filePath : List Char) (lineNumber : Int) (showTimestamp : Bool)
    (ts : List Char) (threshold : LogLevel)
    (hthr : Logger.getLogLevel ndebugMode s.loggers = some threshold)
    (hpass : threshold.enumVal ≤ givenLogLevel.enumVal) :
    ∃ s2, Logger.log ndebugMode sepLines s givenLogLevel message extras
        filePath lineNumber showTimestamp ts = some s2
      ∧ s2.loggers = s.loggers
      ∧ s2.streams.length = s.streams.length
      ∧ s2.stringOutputIds = s.stringOutputIds
      ∧ s2.isStringOutputEnabled = s.isStringOutputEnabled
      ∧ s2.jsonOutputIds = s.jsonOutputIds
      ∧ s2.isJsonOutputEnabled = s.isJsonOutputEnabled
      ∧ s2.jsonOutputsCount
          = (if s.isJsonOutputEnabled then s.jsonOutputsCount + 1
             else s.jsonOutputsCount)
      ∧ (s.isStringOutputEnabled = true → ∀ i, s.stringOutputIds.count i = 1 →
          i ∉ s.jsonOutputIds → i < s.streams.length →
          s2.streams.getD i [] = s.streams.getD i []
            ++ Logger.renderTextRecord sepLines givenLogLevel showTimestamp ts
                filePath lineNumber message extras)
      ∧ (s.isJsonOutputEnabled = true → ∀ i, i ∉ s.stringOutputIds →
          s.jsonOutputIds.count i = 1 → i < s.streams.length →
          s2.streams.getD i [] = s.streams.getD i []
            ++ Logger.renderJsonRecord s.jsonOutputsCount givenLogLevel
                showTimestamp (Logger.escapeString message) ts
                (extras.map Logger.escapeString))
      ∧ (∀ i, i ∉ s.stringOutputIds → i ∉ s.jsonOutputIds →
          s2.streams.getD i [] = s.streams.getD i [])
      ∧ (s.isStringOutputEnabled = true → ∀ i, i ∈ s.stringOutputIds →
          i < s.streams.length →
          (s.streams.getD i []).length < (s2.streams.getD i []).length)
      ∧ (s.isJsonOutputEnabled = true → ∀ i, i ∈ s.jsonOutputIds →
          i < s.streams.length →
          (s.streams.getD i []).length < (s2.streams.getD i []).length) := by
  have hgate : ¬ (givenLogLevel.enumVal < threshold.enumVal) := Int.not_lt.mpr hpass
  simp only [Logger.log, hthr]
  rw [if_neg hgate]
  cases hS : s.isStringOutputEnabled <;> cases hJ : s.isJsonOutputEnabled
  · simp [hS, hJ]
  · simp [hS, hJ]
    simp only [← List.getD_eq_getElem?_getD]
    refine ⟨?_, ?_, ?_, ?_⟩
    · exact length_writeAll _ _ _
    · intro i hni hc hlen
      exact getD_writeAll_count_one _ _ _ _ hc hlen
    · intro i _ hnj
      exact getD_writeAll_not_mem _ _ _ _ hnj
    · intro i hm hlen
      exact length_getD_writeAll_lt _ _ _ _ hm hlen
        (renderJsonRecord_ne_nil _ _ _ _ _ _)
  · simp [hS, hJ]
    simp only [← List.getD_eq_getElem?_getD]
    refine ⟨?_, ?_, ?_, ?_⟩
    · exact length_writeAll _ _ _
    · intro i hc hnj hlen
      exact getD_writeAll_count_one _ _ _ _ hc hlen
    · intro i hns _
      exact getD_writeAll_not_mem _ _ _ _ hns
    · intro i hm hlen
      exact length_getD_writeAll_lt _ _ _ _ hm hlen
        (renderTextRecord_ne_nil _ _ _ _ _ _ _ _)
  · simp [hS, hJ]
    simp only [← List.getD_eq_getElem?_getD]
    refine ⟨?_, ?_, ?_, ?_, ?_, ?_⟩
    · rw [length_writeAll, length_writeAll]
    · intro i hc hnj hlen
      rw [getD_writeAll_not_mem _ _ _ _ hnj,
        getD_writeAll_count_one _ _ _ _ hc hlen]
    · intro i hns hc hlen
      rw [getD_writeAll_count_one _ _ _ _ hc
          (by rw [length_writeAll]; exact hlen),
        getD_writeAll_not_mem _ _ _ _ hns]
    · intro i hns hnj
      rw [getD_writeAll_not_mem _ _ _ _ hnj,
        getD_writeAll_not_mem _ _ _ _ hns]
    · intro i hm hlen
      have h1 := length_getD_writeAll_lt s.streams s.stringOutputIds
        (Logger.renderTextRecord sepLines givenLogLevel showTimestamp ts
          filePath lineNumber message extras) i hm hlen
        (renderTextRecord_ne_nil sepLines givenLogLevel showTimestamp ts
          filePath lineNumber message extras)
      have h2 := length_getD_writeAll_le
        (writeAll s.streams s.stringOutputIds
          (Logger.renderTextRecord sepLines givenLogLevel showTimestamp ts
            filePath lineNumber message extras)) s.jsonOutputIds
        (Logger.renderJsonRecord s.jsonOutputsCount givenLogLevel showTimestamp
          (Logger.escapeString message) ts (extras.map Logger.escapeString)) i
      omega
    · intro i hm hlen
      have h2 := length_getD_writeAll_le s.streams s.stringOutputIds
        (Logger.renderTextRecord sepLines givenLogLevel showTimestamp ts
          filePath lineNumber message extras) i
      have h3 := length_getD_writeAll_lt
        (writeAll s.streams s.stringOutputIds
          (Logger.renderTextRecord sepLines givenLogLevel showTimestamp ts
            filePath lineNumber message extras)) s.jsonOutputIds
        (Logger.renderJsonRecord s.jsonOutputsCount givenLogLevel showTimestamp
          (Logger.escapeString message) ts (extras.map Logger.escapeString)) i hm
        (by rw [length_writeAll]; exact hlen)
        (renderJsonRecord_ne_nil _ _ _ _ _ _)
      omega

/-! Correctness of the JSON shape checker on clean content. -/

lemma str_quote_single : str "\"" = [quoteChar] := by decide

lemma dropText_pre (pat rest : List Char) : dropText pat (pat ++ rest) = some rest := by
  induction pat with
  | nil => rfl
  | cons p ps ih => simp [dropText, ih]

lemma dropText_quote (X : List Char) :
    dropText (str "\"") (quoteChar :: X) = some X := by
  rw [str_quote_single]
  simp [dropText]

lemma scanStr_clean (content : List Char) : ∀ (fuel : Nat) (rest : List Char),
    jsonSafe content = true → content.length < fuel →
    scanStr fuel (content ++ quoteChar :: rest) = some rest := by
  induction content with
  | nil =>
    intro fuel rest _ hf
    match fuel, hf with
    | fuel + 1, _ => simp [scanStr]
  | cons c cs ih =>
    intro fuel rest h hf
    simp only [jsonSafe, List.all_cons, Bool.and_eq_true, bne_iff_ne] at h
    match fuel, hf with
    | fuel + 1, hf =>
      have h1 : ¬ (c = quoteChar) := h.1.1.1
      have h2 : ¬ (c = backslashChar) := h.1.1.2
      have h3 : ¬ (c.toNat < 32) := by
        have := of_decide_eq_true h.1.2
        omega
      simp only [List.cons_append, scanStr, if_neg h1, if_neg h2, if_neg h3]
      exact ih fuel rest (by simp [jsonSafe, h.2]) (by simpa using hf)

lemma scanStrField_clean (name content rest : List Char)
    (h : jsonSafe content = true) :
    scanStrField name
      ((str "\"" ++ name ++ str "\":\"") ++ (content ++ quoteChar :: rest))
        = some rest := by
  unfold scanStrField
  rw [dropText_pre, Option.some_bind]
  exact scanStr_clean content _ rest h (by simp [List.length_append]; omega)

lemma quotedItems_length_ge (extras : List (List Char)) :
    extras.length ≤ (Logger.quotedItems extras).length := by
  induction extras with
  | nil => simp
  | cons e rest ih =>
    cases rest with
    | nil =>
      simp [Logger.quotedItems, str_quote_single, List.length_append]
    | cons f t =>
      have hc : (str "\",").length = 2 := by decide
      simp only [Logger.quotedItems, List.length_append, List.length_cons,
        str_quote_single, hc] at ih ⊢
      simp at ih ⊢
      omega

lemma scanItems_clean (extras : List (List Char)) :
    ∀ (fuel : Nat) (rest : List Char), extras ≠ [] →
    (∀ e ∈ extras, jsonSafe e = true) → extras.length < fuel →
    scanItems fuel (Logger.quotedItems extras ++ ']' :: rest) = some rest := by
  induction extras with
  | nil => intro _ _ hne; exact absurd rfl hne
  | cons e tail ih =>
    intro fuel rest _ hsafe hf
    match fuel, hf with
    | fuel + 1, hf =>
      cases tail with
      | nil =>
        have hshape : Logger.quotedItems [e] ++ ']' :: rest
            = quoteChar :: (e ++ quoteChar :: (']' :: rest)) := by
          simp [Logger.quotedItems, str_quote_single]
        rw [hshape]
        simp only [scanItems]
        rw [dropText_quote, Option.some_bind]
        rw [scanStr_clean e _ (']' :: rest) (hsafe e (by simp))
          (by simp [List.length_append]; omega)]
        simp
      | cons f t =>
        have hshape : Logger.quotedItems (e :: f :: t) ++ ']' :: rest
            = quoteChar :: (e ++ quoteChar ::
                (',' :: (Logger.quotedItems (f :: t) ++ ']' :: rest))) := by
          have h2 : str "\"," = [quoteChar, ','] := by decide
          simp [Logger.quotedItems, str_quote_single, h2]
        rw [hshape]
        simp only [scanItems]
        rw [dropText_quote, Option.some_bind]
        rw [scanStr_clean e _ (',' :: (Logger.quotedItems (f :: t) ++ ']' :: rest))
          (hsafe e (by simp)) (by simp [List.length_append]; omega)]
        rw [Option.some_bind]
        have hcomma : ¬ ((',' : Char) = ']') := by decide
        simp only [if_neg hcomma, if_pos rfl]
        exact ih fuel rest (by simp) (fun x hx => hsafe x (by simp [hx]))
          (by simpa using hf)



lemma getLogLevelName_jsonSafe (lvl : LogLevel) :
    jsonSafe (getLogLevelName lvl false) = true := by
  cases lvl <;> decide

lemma dropText_comma (X : List Char) : dropText (str ",") (',' :: X) = some X := by
  have h : str "," = [','] := by decide
  simp [h, dropText]

lemma renderJsonObj_shape (lvl : LogLevel) (st : Bool) (msg ts : List Char)
    (extras : List (List Char)) (rest : List Char) :
    Logger.renderJsonObj lvl st msg ts extras ++ rest
      = str "\x7b" ++ ((str "\"" ++ str "severity" ++ str "\":\"") ++
          (getLogLevelName lvl false ++ quoteChar :: (',' ::
          ((str "\"" ++ str "message" ++ str "\":\"") ++
          (msg ++ quoteChar :: (',' ::
          ((str "\"" ++ str "timestamp" ++ str "\":\"") ++
          (ts ++ quoteChar ::
            ((if extras ≠ [] then
                str ",\"extras\":[" ++ Logger.quotedItems extras ++ str "]"
              else []) ++ (rbraceChar :: rest)))))))))) := by
  have h1 : str "\x7b\"severity\":\""
      = str "\x7b" ++ (str "\"" ++ str "severity" ++ str "\":\"") := by decide
  have h2 : str "\"," = quoteChar :: [','] := by decide
  have h3 : str "\"message\":\"" = str "\"" ++ str "message" ++ str "\":\"" := by decide
  have h4 : str "\"timestamp\":\"" = str "\"" ++ str "timestamp" ++ str "\":\"" := by decide
  have h5 : str "\"" = [quoteChar] := str_quote_single
  have h6 : str "\x7d" = [rbraceChar] := by decide
  simp [Logger.renderJsonObj, h1, h2, h3, h4, h5, h6, List.append_assoc]

lemma scanObj_clean (lvl : LogLevel) (st : Bool) (msg ts : List Char)
    (extras : List (List Char)) (rest : List Char)
    (hmsg : jsonSafe msg = true) (hts : jsonSafe ts = true)
    (hex : ∀ e ∈ extras, jsonSafe e = true) :
    scanObj (Logger.renderJsonObj lvl st msg ts extras ++ rest) = some rest := by
  rw [renderJsonObj_shape]
  unfold scanObj
  rw [dropText_pre, Option.some_bind]
  rw [scanStrField_clean _ _ _ (getLogLevelName_jsonSafe lvl), Option.some_bind]
  rw [dropText_comma, Option.some_bind]
  rw [scanStrField_clean _ _ _ hmsg, Option.some_bind]
  rw [dropText_comma, Option.some_bind]
  rw [scanStrField_clean _ _ _ hts, Option.some_bind]
  by_cases hne : extras = []
  · simp [hne]
  · have hcomma : str ",\"extras\":[" = ',' :: str "\"extras\":[" := by decide
    have hrb : str "]" = [']'] := by decide
    simp only [hne, if_pos, ite_true, if_neg, hcomma, hrb, List.append_assoc,
      List.cons_append, List.nil_append, ne_eq, not_false_iff]
    have hcne : ¬ ((',' : Char) = rbraceChar) := by decide
    rw [dropText_pre, Option.some_bind]
    rw [scanItems_clean extras _ (rbraceChar :: rest) hne hex ?hfuel]
    · simp [hcne]
    case hfuel =>
      have := quotedItems_length_ge extras
      simp [List.length_append]
      omega



lemma isJsonTwoRecordArray_clean (lvl1 lvl2 : LogLevel) (st1 st2 : Bool)
    (msg1 msg2 ts1 ts2 : List Char) (ex1 ex2 : List (List Char))
    (hm1 : jsonSafe msg1 = true) (hm2 : jsonSafe msg2 = true)
    (ht1 : jsonSafe ts1 = true) (ht2 : jsonSafe ts2 = true)
    (he1 : ∀ e ∈ ex1, jsonSafe e = true) (he2 : ∀ e ∈ ex2, jsonSafe e = true) :
    isJsonTwoRecordArray
      (str "[" ++ Logger.renderJsonObj lvl1 st1 msg1 ts1 ex1
        ++ str "," ++ Logger.renderJsonObj lvl2 st2 msg2 ts2 ex2 ++ str "]")
      = true := by
  unfold isJsonTwoRecordArray
  simp only [List.append_assoc]
  rw [dropText_pre, Option.some_bind]
  rw [scanObj_clean lvl1 st1 msg1 ts1 ex1 _ hm1 ht1 he1, Option.some_bind]
  rw [dropText_pre, Option.some_bind]
  rw [scanObj_clean lvl2 st2 msg2 ts2 ex2 _ hm2 ht2 he2]
  simp

/-! The claims. -/

lemma getLogLevel_some (ndebugMode : Bool) (loggers : List LogLevel)
    (h : loggers ≠ []) :
    Logger.getLogLevel ndebugMode loggers
      = some (resolveFromLast (TINYLOG_DEFAULT_LOG_LEVEL ndebugMode)
          loggers.reverse) := by
  unfold Logger.getLogLevel
  rw [if_neg (by simpa using h)]

lemma enumVal_bounds (l : LogLevel) (h : l ≠ .INHERIT) :
    0 ≤ l.enumVal ∧ l.enumVal ≤ 4 := by
  cases l <;> simp_all [LogLevel.enumVal]

/-- Claim C1: `getLogLevel` walks the registry backward from the
globally last-registered instance (whichever instance is called),
skipping `INHERIT` entries, returning the compiled-in default when
index 0 is reached with `INHERIT` and otherwise the first non-`INHERIT`
configured level; in particular `[INHERIT, WARN, INHERIT]` resolves to
`WARN`. -/
theorem claim_C1_resolution (ndebugMode : Bool) (loggers : List LogLevel)
    (h : loggers ≠ []) :
    Logger.getLogLevel ndebugMode loggers
        = some ((loggers.reverse.find? (fun l => decide (l ≠ LogLevel.INHERIT))).getD
            (TINYLOG_DEFAULT_LOG_LEVEL ndebugMode))
      ∧ Logger.getLogLevel ndebugMode
          [LogLevel.INHERIT, LogLevel.WARN, LogLevel.INHERIT]
          = some LogLevel.WARN := by
  constructor
  · rw [getLogLevel_some ndebugMode loggers h, resolveFromLast_eq_find]
  · cases ndebugMode <;> decide

/-- Witness for C1 at `[INHERIT, WARN, INHERIT]` in debug mode. -/
theorem claim_C1_resolution_witness :
    Logger.getLogLevel false [LogLevel.INHERIT, LogLevel.WARN, LogLevel.INHERIT]
        = some ((([LogLevel.INHERIT, LogLevel.WARN, LogLevel.INHERIT].reverse.find?
            (fun l => decide (l ≠ LogLevel.INHERIT))).getD
            (TINYLOG_DEFAULT_LOG_LEVEL false)))
      ∧ Logger.getLogLevel false
          [LogLevel.INHERIT, LogLevel.WARN, LogLevel.INHERIT]
          = some LogLevel.WARN :=
  claim_C1_resolution false [LogLevel.INHERIT, LogLevel.WARN, LogLevel.INHERIT]
    (by decide)

/-- Claim C10: logging with the sentinel `INHERIT` severity is always a
silent no-op: `getLogLevel` only returns one of the five concrete
levels (values 0..4), so the gate `INHERIT < threshold` (-1 < 0..4)
always holds and `log` returns the state unchanged. -/
theorem claim_C10_inherit_noop (ndebugMode sepLines : Bool) (s : LogState)
    (message : List Char) (extras : List (List Char)) (filePath : List Char)
    (lineNumber : Int) (showTimestamp : Bool) (ts : List Char)
    (h : s.loggers ≠ []) :
    ∃ threshold, Logger.getLogLevel ndebugMode s.loggers = some threshold
      ∧ threshold ≠ LogLevel.INHERIT
      ∧ 0 ≤ threshold.enumVal ∧ threshold.enumVal ≤ 4
      ∧ LogLevel.INHERIT.enumVal < threshold.enumVal
      ∧ Logger.log ndebugMode sepLines s LogLevel.INHERIT message extras
          filePath lineNumber showTimestamp ts = some s := by
  have hthr := getLogLevel_some ndebugMode s.loggers h
  have hni : resolveFromLast (TINYLOG_DEFAULT_LOG_LEVEL ndebugMode)
      s.loggers.reverse ≠ LogLevel.INHERIT :=
    resolveFromLast_ne_INHERIT _ _ (TINYLOG_DEFAULT_LOG_LEVEL_ne_INHERIT _)
  have hb := enumVal_bounds _ hni
  have hgate : LogLevel.INHERIT.enumVal
      < (resolveFromLast (TINYLOG_DEFAULT_LOG_LEVEL ndebugMode)
          s.loggers.reverse).enumVal := by
    have hI : LogLevel.INHERIT.enumVal = -1 := rfl
    omega
  refine ⟨_, hthr, hni, hb.1, hb.2, hgate, ?_⟩
  simp only [Logger.log, hthr]
  rw [if_pos hgate]

/-- Witness for C10: a single `WARN` logger, `log(INHERIT, "x")` leaves
the state unchanged. -/
theorem claim_C10_inherit_noop_witness :
    ∃ threshold,
      Logger.getLogLevel false
          (LogState.mk [LogLevel.WARN] [[]] [] false [] false 0).loggers
        = some threshold
      ∧ threshold ≠ LogLevel.INHERIT
      ∧ 0 ≤ threshold.enumVal ∧ threshold.enumVal ≤ 4
      ∧ LogLevel.INHERIT.enumVal < threshold.enumVal
      ∧ Logger.log false false (LogState.mk [LogLevel.WARN] [[]] [] false [] false 0)
          LogLevel.INHERIT (str "x") [] [] (-1) true (str "T")
          = some (LogState.mk [LogLevel.WARN] [[]] [] false [] false 0) :=
  claim_C10_inherit_noop false false _ (str "x") [] [] (-1) true (str "T")
    (by decide)



/-- Claim C2: a `log` call strictly below the effective threshold
returns immediately with no output and no state change (the returned
state is the input state, so in particular the JSON counter is
unchanged); a call at or above the threshold produces output (strictly
grows the buffer) on every enabled destination of each enabled kind. -/
theorem claim_C2_severity_gate (ndebugMode sepLines : Bool) (s : LogState)
    (givenLogLevel : LogLevel) (message : List Char) (extras : List (List Char))
    (filePath : List Char) (lineNumber : Int) (showTimestamp : Bool)
    (ts : List Char) (threshold : LogLevel)
    (hthr : Logger.getLogLevel ndebugMode s.loggers = some threshold) :
    (givenLogLevel.enumVal < threshold.enumVal →
      Logger.log ndebugMode sepLines s givenLogLevel message extras filePath
        lineNumber showTimestamp ts = some s)
    ∧ (threshold.enumVal ≤ givenLogLevel.enumVal →
      ∃ s2, Logger.log ndebugMode sepLines s givenLogLevel message extras
          filePath lineNumber showTimestamp ts = some s2
        ∧ (s.isStringOutputEnabled = true → ∀ i ∈ s.stringOutputIds,
            i < s.streams.length →
            (s.streams.getD i []).length < (s2.streams.getD i []).length)
        ∧ (s.isJsonOutputEnabled = true → ∀ i ∈ s.jsonOutputIds,
            i < s.streams.length →
            (s.streams.getD i []).length < (s2.streams.getD i []).length)) := by
  constructor
  · intro hlt
    simp only [Logger.log, hthr]
    rw [if_pos hlt]
  · intro hge
    obtain ⟨s2, hlog, _, _, _, _, _, _, _, _, _, _, hgrowS, hgrowJ⟩ :=
      log_accepted ndebugMode sepLines s givenLogLevel message extras filePath
        lineNumber showTimestamp ts threshold hthr hge
    exact ⟨s2, hlog, hgrowS, hgrowJ⟩

/-- Witness for C2: one logger at `WARN`, text output on stream 0;
`log(DEBUG)` is a no-op and `log(ERROR)` grows the buffer. -/
theorem claim_C2_severity_gate_witness :
    (LogLevel.DEBUG.enumVal < LogLevel.WARN.enumVal →
      Logger.log false false (LogState.mk [LogLevel.WARN] [[]] [0] true [] false 0)
        LogLevel.DEBUG (str "m") [] [] (-1) true (str "T")
        = some (LogState.mk [LogLevel.WARN] [[]] [0] true [] false 0))
    ∧ (LogLevel.WARN.enumVal ≤ LogLevel.DEBUG.enumVal →
      ∃ s2, Logger.log false false
          (LogState.mk [LogLevel.WARN] [[]] [0] true [] false 0)
          LogLevel.DEBUG (str "m") [] [] (-1) true (str "T") = some s2
        ∧ ((LogState.mk [LogLevel.WARN] [[]] [0] true [] false 0).isStringOutputEnabled = true →
            ∀ i ∈ (LogState.mk [LogLevel.WARN] [[]] [0] true [] false 0 : LogState).stringOutputIds,
            i < (LogState.mk [LogLevel.WARN] [[]] [0] true [] false 0 : LogState).streams.length →
            (((LogState.mk [LogLevel.WARN] [[]] [0] true [] false 0 : LogState).streams.getD i []).length
              < ((s2.streams.getD i []).length)))
        ∧ ((LogState.mk [LogLevel.WARN] [[]] [0] true [] false 0).isJsonOutputEnabled = true →
            ∀ i ∈ (LogState.mk [LogLevel.WARN] [[]] [0] true [] false 0 : LogState).jsonOutputIds,
            i < (LogState.mk [LogLevel.WARN] [[]] [0] true [] false 0 : LogState).streams.length →
            (((LogState.mk [LogLevel.WARN] [[]] [0] true [] false 0 : LogState).streams.getD i []).length
              < ((s2.streams.getD i []).length)))) :=
  claim_C2_severity_gate false false
    (LogState.mk [LogLevel.WARN] [[]] [0] true [] false 0)
    LogLevel.DEBUG (str "m") [] [] (-1) true (str "T") LogLevel.WARN (by decide)



lemma renderTextRecord_no_ts (sepLines : Bool) (lvl : LogLevel)
    (ts fp : List Char) (ln : Int) (msg : List Char) (ex : List (List Char)) :
    Logger.renderTextRecord sepLines lvl false ts fp ln msg ex
      = Logger.renderTextRecord sepLines lvl false [] fp ln msg ex := by
  simp [Logger.renderTextRecord]

lemma renderJsonRecord_pos (count : Nat) (lvl : LogLevel) (st : Bool)
    (msg ts : List Char) (ex : List (List Char)) (h : 0 < count) :
    Logger.renderJsonRecord count lvl st msg ts ex
      = str "," ++ Logger.renderJsonObj lvl st msg ts ex := by
  unfold Logger.renderJsonRecord
  rw [if_pos h]

lemma renderJsonRecord_zero (lvl : LogLevel) (st : Bool)
    (msg ts : List Char) (ex : List (List Char)) :
    Logger.renderJsonRecord 0 lvl st msg ts ex
      = Logger.renderJsonObj lvl st msg ts ex := by
  unfold Logger.renderJsonRecord
  simp

lemma renderJsonRecord_head (count : Nat) (lvl : LogLevel) (st : Bool)
    (msg ts : List Char) (ex : List (List Char)) :
    (Logger.renderJsonRecord count lvl st msg ts ex).take 1
      = (if 0 < count then [','] else [lbraceChar]) := by
  unfold Logger.renderJsonRecord
  by_cases h : 0 < count
  · rw [if_pos h, if_pos h]
    have hc : str "," = [','] := by decide
    simp [hc]
  · rw [if_neg h, if_neg h]
    simp only [Logger.renderJsonObj, str_objHead, List.nil_append,
      List.cons_append, List.append_assoc]
    simp

/-- Claim C5: with inline extras and the threshold admitting `ERROR`, a
`log(ERROR, "boom", ["x=1"], "a.c", 10, showTimestamp := false)` call
appends exactly the bytes `"[ERROR] a.c (line 10) - boom - EXTRAS -  x=1 ;\n"`
to the single enabled text destination. -/
theorem claim_C5_text_literal (ndebugMode : Bool) (s : LogState) (d : Nat)
    (threshold : LogLevel) (ts : List Char)
    (hthr : Logger.getLogLevel ndebugMode s.loggers = some threshold)
    (hadm : threshold.enumVal ≤ LogLevel.ERROR.enumVal)
    (hen : s.isStringOutputEnabled = true)
    (hids : s.stringOutputIds = [d])
    (hlen : d < s.streams.length)
    (hnj : d ∉ s.jsonOutputIds) :
    ∃ s2, Logger.log ndebugMode false s LogLevel.ERROR (str "boom")
        [str "x=1"] (str "a.c") 10 false ts = some s2
      ∧ s2.streams.getD d [] = s.streams.getD d []
          ++ str "[ERROR] a.c (line 10) - boom - EXTRAS -  x=1 ;\n" := by
  obtain ⟨s2, hlog, _, _, _, _, _, _, _, htext, _, _, _, _⟩ :=
    log_accepted ndebugMode false s .ERROR (str "boom") [str "x=1"]
      (str "a.c") 10 false ts threshold hthr hadm
  refine ⟨s2, hlog, ?_⟩
  have hcount : s.stringOutputIds.count d = 1 := by rw [hids]; simp
  rw [htext hen d hcount hnj hlen, renderTextRecord_no_ts]
  congr 1

/-- Witness for C5 with one `DEBUG` logger and stream 0 as the text
destination. -/
theorem claim_C5_text_literal_witness :
    ∃ s2, Logger.log false false
        (LogState.mk [LogLevel.DEBUG] [[]] [0] true [] false 0)
        LogLevel.ERROR (str "boom") [str "x=1"] (str "a.c") 10 false (str "T")
        = some s2
      ∧ s2.streams.getD 0 []
          = (LogState.mk [LogLevel.DEBUG] [[]] [0] true [] false 0
              : LogState).streams.getD 0 []
            ++ str "[ERROR] a.c (line 10) - boom - EXTRAS -  x=1 ;\n" :=
  claim_C5_text_literal false
    (LogState.mk [LogLevel.DEBUG] [[]] [0] true [] false 0) 0
    LogLevel.DEBUG (str "T") (by decide) (by decide) (by decide) (by decide)
    (by decide) (by decide)



/-- Claim C4: the JSON record counter is one global counter: an
accepted call with JSON enabled increments it exactly once however many
JSON destinations exist; all destinations of the call receive the same
record bytes, whose leading comma is present iff the counter was
non-zero before the call; and a destination added via `addJsonOutput`
after records have been emitted gets a leading comma before its first
record. -/
theorem claim_C4_shared_counter (ndebugMode sepLines : Bool) (s : LogState)
    (givenLogLevel : LogLevel) (message : List Char) (extras : List (List Char))
    (filePath : List Char) (lineNumber : Int) (showTimestamp : Bool)
    (ts : List Char) (threshold : LogLevel)
    (hthr : Logger.getLogLevel ndebugMode s.loggers = some threshold)
    (hpass : threshold.enumVal ≤ givenLogLevel.enumVal)
    (hjson : s.isJsonOutputEnabled = true) :
    (∃ s2, Logger.log ndebugMode sepLines s givenLogLevel message extras
        filePath lineNumber showTimestamp ts = some s2
      ∧ s2.jsonOutputsCount = s.jsonOutputsCount + 1
      ∧ ∃ rec, (∀ i, i ∉ s.stringOutputIds → s.jsonOutputIds.count i = 1 →
            i < s.streams.length →
            s2.streams.getD i [] = s.streams.getD i [] ++ rec)
          ∧ (rec.take 1 = [','] ↔ 0 < s.jsonOutputsCount))
    ∧ (∀ d, d ∉ s.jsonOutputIds → d ∉ s.stringOutputIds →
        d < s.streams.length → 0 < s.jsonOutputsCount →
        ∃ sA s2, Logger.addJsonOutput s d = some sA
          ∧ Logger.log ndebugMode sepLines sA givenLogLevel message extras
              filePath lineNumber showTimestamp ts = some s2
          ∧ s2.streams.getD d [] = s.streams.getD d []
              ++ str "[" ++ str ","
              ++ Logger.renderJsonObj givenLogLevel showTimestamp
                  (Logger.escapeString message) ts
                  (extras.map Logger.escapeString)) := by
  constructor
  · obtain ⟨s2, hlog, _, _, _, _, _, _, hcount, _, hjsonbytes, _, _, _⟩ :=
      log_accepted ndebugMode sepLines s givenLogLevel message extras filePath
        lineNumber showTimestamp ts threshold hthr hpass
    refine ⟨s2, hlog, by rw [hcount, if_pos hjson], ?_⟩
    refine ⟨Logger.renderJsonRecord s.jsonOutputsCount givenLogLevel
      showTimestamp (Logger.escapeString message) ts
      (extras.map Logger.escapeString), ?_, ?_⟩
    · intro i hns hc hlen
      exact hjsonbytes hjson i hns hc hlen
    · rw [renderJsonRecord_head]
      by_cases h : 0 < s.jsonOutputsCount
      · simp [h]
      · simp only [if_neg h]
        constructor
        · intro hcontr
          exact absurd (List.head_eq_of_cons_eq hcontr) (by decide)
        · intro hcontr
          exact absurd hcontr h
  · intro d hdj hds hdlen hcpos
    have hadd : Logger.addJsonOutput s d
        = some { s with jsonOutputIds := s.jsonOutputIds ++ [d],
                        streams := writeTo s.streams d (str "[") } := by
      unfold Logger.addJsonOutput
      rw [if_pos hjson]
    set sA : LogState :=
      { s with jsonOutputIds := s.jsonOutputIds ++ [d],
               streams := writeTo s.streams d (str "[") } with hsA
    have hthrA : Logger.getLogLevel ndebugMode sA.loggers = some threshold := hthr
    obtain ⟨s2, hlog, _, _, _, _, _, _, _, _, hjsonbytes, _, _, _⟩ :=
      log_accepted ndebugMode sepLines sA givenLogLevel message extras filePath
        lineNumber showTimestamp ts threshold hthrA hpass
    refine ⟨sA, s2, hadd, hlog, ?_⟩
    have hcA : sA.jsonOutputIds.count d = 1 := by
      simp only [hsA, List.count_append]
      rw [List.count_eq_zero.mpr hdj]
      simp
    have hlenA : d < sA.streams.length := by
      simp only [hsA, length_writeTo]
      exact hdlen
    have hbytes := hjsonbytes (by simp only [hsA]; exact hjson) d
      (by simp only [hsA]; exact hds) hcA hlenA
    rw [hbytes]
    have hgetA : sA.streams.getD d [] = s.streams.getD d [] ++ str "[" := by
      simp only [hsA]
      exact getD_writeTo_self s.streams d (str "[") hdlen
    have hcntA : sA.jsonOutputsCount = s.jsonOutputsCount := rfl
    rw [hgetA, hcntA, renderJsonRecord_pos _ _ _ _ _ _ hcpos]
    simp [List.append_assoc]



/-- Witness for C4: logger at `DEBUG`, JSON enabled on stream 0 with one
record already emitted; stream 1 exists for the late-join part. -/
theorem claim_C4_shared_counter_witness :
    (∃ s2, Logger.log false false
        (LogState.mk [LogLevel.DEBUG] [[], []] [] false [0] true 1)
        LogLevel.INFO (str "m") [] [] (-1) true (str "T") = some s2
      ∧ s2.jsonOutputsCount
          = (LogState.mk [LogLevel.DEBUG] [[], []] [] false [0] true 1
              : LogState).jsonOutputsCount + 1
      ∧ ∃ rec, (∀ i, i ∉ (LogState.mk [LogLevel.DEBUG] [[], []] [] false [0] true 1
              : LogState).stringOutputIds →
            (LogState.mk [LogLevel.DEBUG] [[], []] [] false [0] true 1
              : LogState).jsonOutputIds.count i = 1 →
            i < (LogState.mk [LogLevel.DEBUG] [[], []] [] false [0] true 1
              : LogState).streams.length →
            s2.streams.getD i []
              = (LogState.mk [LogLevel.DEBUG] [[], []] [] false [0] true 1
                  : LogState).streams.getD i [] ++ rec)
          ∧ (rec.take 1 = [','] ↔
              0 < (LogState.mk [LogLevel.DEBUG] [[], []] [] false [0] true 1
                : LogState).jsonOutputsCount))
    ∧ (∀ d, d ∉ (LogState.mk [LogLevel.DEBUG] [[], []] [] false [0] true 1
          : LogState).jsonOutputIds →
        d ∉ (LogState.mk [LogLevel.DEBUG] [[], []] [] false [0] true 1
          : LogState).stringOutputIds →
        d < (LogState.mk [LogLevel.DEBUG] [[], []] [] false [0] true 1
          : LogState).streams.length →
        0 < (LogState.mk [LogLevel.DEBUG] [[], []] [] false [0] true 1
          : LogState).jsonOutputsCount →
        ∃ sA s2, Logger.addJsonOutput
            (LogState.mk [LogLevel.DEBUG] [[], []] [] false [0] true 1) d = some sA
          ∧ Logger.log false false sA LogLevel.INFO (str "m") [] [] (-1) true
              (str "T") = some s2
          ∧ s2.streams.getD d []
              = (LogState.mk [LogLevel.DEBUG] [[], []] [] false [0] true 1
                  : LogState).streams.getD d []
                ++ str "[" ++ str ","
                ++ Logger.renderJsonObj LogLevel.INFO true
                    (Logger.escapeString (str "m")) (str "T")
                    (List.map Logger.escapeString [])) :=
  claim_C4_shared_counter false false
    (LogState.mk [LogLevel.DEBUG] [[], []] [] false [0] true 1)
    LogLevel.INFO (str "m") [] [] (-1) true (str "T") LogLevel.DEBUG
    (by decide) (by decide) (by decide)



lemma jsonSafe_escapeString (s : List Char) (h : noBackslashCtrl s = true) :
    jsonSafe (Logger.escapeString s) = true := by
  induction s with
  | nil => rfl
  | cons c cs ih =>
    simp only [noBackslashCtrl, List.all_cons, Bool.and_eq_true] at h
    simp only [Logger.escapeString, List.map_cons, jsonSafe, List.all_cons,
      Bool.and_eq_true]
    refine ⟨⟨?_, ?_⟩, ih h.2⟩
    · by_cases hc : c = quoteChar
      · rw [if_pos hc]
        decide
      · rw [if_neg hc]
        constructor
        · exact bne_iff_ne.mpr hc
        · exact h.1.1
    · by_cases hc : c = quoteChar
      · rw [if_pos hc]
        decide
      · rw [if_neg hc]
        exact h.1.2

/-- Claim C3 (amended): the JSON round-trip writes exactly
`[` object `,` object `]`, valid JSON, provided messages and extras
contain no backslash/control characters and the timestamps are
JSON-string-safe. -/
theorem claim_C3_json_roundtrip (ndebugMode sepLines : Bool) (s : LogState)
    (dest : Nat) (lvl1 lvl2 : LogLevel) (msg1 msg2 ts1 ts2 fp1 fp2 : List Char)
    (ln1 ln2 : Int) (st1 st2 : Bool) (ex1 ex2 : List (List Char))
    (threshold : LogLevel)
    (hdlen : dest < s.streams.length)
    (hds : dest ∉ s.stringOutputIds)
    (hdj : dest ∉ s.jsonOutputIds)
    (hthr : Logger.getLogLevel ndebugMode s.loggers = some threshold)
    (h1 : threshold.enumVal ≤ lvl1.enumVal)
    (h2 : threshold.enumVal ≤ lvl2.enumVal)
    (hm1 : noBackslashCtrl msg1 = true) (hm2 : noBackslashCtrl msg2 = true)
    (he1 : ∀ e ∈ ex1, noBackslashCtrl e = true)
    (he2 : ∀ e ∈ ex2, noBackslashCtrl e = true)
    (ht1 : jsonSafe ts1 = true) (ht2 : jsonSafe ts2 = true) :
    ∃ sE s2 s3, Logger.enableJsonOutput s dest = some sE
      ∧ Logger.log ndebugMode sepLines sE lvl1 msg1 ex1 fp1 ln1 st1 ts1 = some s2
      ∧ Logger.log ndebugMode sepLines s2 lvl2 msg2 ex2 fp2 ln2 st2 ts2 = some s3
      ∧ (Logger.disableJsonOutput s3).streams.getD dest []
          = s.streams.getD dest []
            ++ (str "[" ++ Logger.renderJsonObj lvl1 st1
                  (Logger.escapeString msg1) ts1 (ex1.map Logger.escapeString)
                ++ str "," ++ Logger.renderJsonObj lvl2 st2
                  (Logger.escapeString msg2) ts2 (ex2.map Logger.escapeString)
                ++ str "]")
      ∧ isJsonTwoRecordArray
          (str "[" ++ Logger.renderJsonObj lvl1 st1
              (Logger.escapeString msg1) ts1 (ex1.map Logger.escapeString)
            ++ str "," ++ Logger.renderJsonObj lvl2 st2
              (Logger.escapeString msg2) ts2 (ex2.map Logger.escapeString)
            ++ str "]") = true := by
  set sE : LogState :=
    { s with streams := writeTo s.streams dest (str "["),
             jsonOutputIds := s.jsonOutputIds ++ [dest],
             isJsonOutputEnabled := true,
             jsonOutputsCount := 0 } with hsE
  have hE : Logger.enableJsonOutput s dest = some sE := rfl
  have hcdest : sE.jsonOutputIds.count dest = 1 := by
    simp only [hsE, List.count_append]
    rw [List.count_eq_zero.mpr hdj]
    simp
  obtain ⟨s2, hlog2, hlg2, hlen2, hsi2, _, hji2, hje2, hcnt2, _, hjb2, _, _, _⟩ :=
    log_accepted ndebugMode sepLines sE lvl1 msg1 ex1 fp1 ln1 st1 ts1 threshold
      hthr h1
  obtain ⟨s3, hlog3, _, hlen3, _, _, hji3, _, _, _, hjb3, _, _, _⟩ :=
    log_accepted ndebugMode sepLines s2 lvl2 msg2 ex2 fp2 ln2 st2 ts2 threshold
      (by rw [hlg2]; exact hthr) h2
  refine ⟨sE, s2, s3, hE, hlog2, hlog3, ?_, ?_⟩
  · have hb2 : s2.streams.getD dest []
        = sE.streams.getD dest []
          ++ Logger.renderJsonRecord sE.jsonOutputsCount lvl1 st1
              (Logger.escapeString msg1) ts1 (ex1.map Logger.escapeString) := by
      refine hjb2 (by simp [hsE]) dest (by simpa [hsE] using hds) hcdest ?_
      simp only [hsE, length_writeTo]
      exact hdlen
    have hb3 : s3.streams.getD dest []
        = s2.streams.getD dest []
          ++ Logger.renderJsonRecord s2.jsonOutputsCount lvl2 st2
              (Logger.escapeString msg2) ts2 (ex2.map Logger.escapeString) := by
      refine hjb3 (by rw [hje2]) dest ?_ ?_ ?_
      · rw [hsi2]
        simpa [hsE] using hds
      · rw [hji2]
        exact hcdest
      · rw [hlen2]
        simp only [hsE, length_writeTo]
        exact hdlen
    have hdis : (Logger.disableJsonOutput s3).streams.getD dest []
        = s3.streams.getD dest [] ++ str "]" := by
      unfold Logger.disableJsonOutput
      refine getD_writeAll_count_one _ _ _ _ ?_ ?_
      · rw [hji3, hji2]
        exact hcdest
      · rw [hlen3, hlen2]
        simp only [hsE, length_writeTo]
        exact hdlen
    have hcnt0 : sE.jsonOutputsCount = 0 := rfl
    have hcnt1 : s2.jsonOutputsCount = 1 := by
      rw [hcnt2, if_pos (by simp [hsE] : sE.isJsonOutputEnabled = true), hcnt0]
    have hgetE : sE.streams.getD dest [] = s.streams.getD dest [] ++ str "[" := by
      simp only [hsE]
      exact getD_writeTo_self s.streams dest (str "[") hdlen
    rw [hdis, hb3, hb2, hgetE, hcnt0, hcnt1,
      renderJsonRecord_zero, renderJsonRecord_pos _ _ _ _ _ _ (by omega)]
    simp [List.append_assoc]
  · exact isJsonTwoRecordArray_clean lvl1 lvl2 st1 st2 _ _ ts1 ts2 _ _
      (jsonSafe_escapeString msg1 hm1) (jsonSafe_escapeString msg2 hm2)
      ht1 ht2
      (by intro e he
          obtain ⟨e0, he0, rfl⟩ := List.mem_map.mp he
          exact jsonSafe_escapeString e0 (he1 e0 he0))
      (by intro e he
          obtain ⟨e0, he0, rfl⟩ := List.mem_map.mp he
          exact jsonSafe_escapeString e0 (he2 e0 he0))



set_option maxRecDepth 8192 in
/-- Counterexample to C3 as stated: when the first message is a single
backslash, the two-record scenario runs to completion but the bytes on
the destination are not a valid JSON array of two objects (the `\",`
sequence forms an escaped quote, so the first string literal swallows
the field separator and the object structure is broken). -/
theorem claim_C3_counterexample :
    c3CexRun = some (str "[\x7b\"severity\":\"INFO\",\"message\":\"\\\",\"timestamp\":\"2024-01-01T00:00:00Z\"\x7d,\x7b\"severity\":\"WARN\",\"message\":\"ok\",\"timestamp\":\"2024-01-01T00:00:01Z\"\x7d]")
    ∧ c3CexRun.map isJsonTwoRecordArray = some false := by decide

/-- Witness for C3 (amended) at a concrete clean scenario. -/
theorem claim_C3_json_roundtrip_witness :
    ∃ sE s2 s3, Logger.enableJsonOutput
        (LogState.mk [LogLevel.DEBUG] [[]] [] false [] false 0) 0 = some sE
      ∧ Logger.log false false sE LogLevel.INFO (str "hi") [str "e1"] [] (-1)
          true (str "2024-01-01T00:00:00Z") = some s2
      ∧ Logger.log false false s2 LogLevel.WARN (str "ok") [] [] (-1)
          true (str "2024-01-01T00:00:01Z") = some s3
      ∧ (Logger.disableJsonOutput s3).streams.getD 0 []
          = (LogState.mk [LogLevel.DEBUG] [[]] [] false [] false 0
              : LogState).streams.getD 0 []
            ++ (str "[" ++ Logger.renderJsonObj LogLevel.INFO true
                  (Logger.escapeString (str "hi")) (str "2024-01-01T00:00:00Z")
                  ([str "e1"].map Logger.escapeString)
                ++ str "," ++ Logger.renderJsonObj LogLevel.WARN true
                  (Logger.escapeString (str "ok")) (str "2024-01-01T00:00:01Z")
                  (([] : List (List Char)).map Logger.escapeString)
                ++ str "]")
      ∧ isJsonTwoRecordArray
          (str "[" ++ Logger.renderJsonObj LogLevel.INFO true
              (Logger.escapeString (str "hi")) (str "2024-01-01T00:00:00Z")
              ([str "e1"].map Logger.escapeString)
            ++ str "," ++ Logger.renderJsonObj LogLevel.WARN true
              (Logger.escapeString (str "ok")) (str "2024-01-01T00:00:01Z")
              (([] : List (List Char)).map Logger.escapeString)
            ++ str "]") = true :=
  claim_C3_json_roundtrip false false
    (LogState.mk [LogLevel.DEBUG] [[]] [] false [] false 0) 0
    LogLevel.INFO LogLevel.WARN (str "hi") (str "ok")
    (str "2024-01-01T00:00:00Z") (str "2024-01-01T00:00:01Z") [] []
    (-1) (-1) true true [str "e1"] [] LogLevel.DEBUG
    (by decide) (by decide) (by decide) (by decide) (by decide) (by decide)
    (by decide) (by decide) (by decide) (by decide) (by decide) (by decide)



/-- Claim C6: destruction of any Logger instance (the destructor code is
identical whichever instance dies, since sink state is static) clears
the text destination collection and flag, writes `]` to every
registered JSON destination, clears the JSON collection, resets the
counter to 0, and disables JSON output.  The registry is untouched. -/
theorem claim_C6_destructor_teardown (s : LogState) :
    (Logger.destruct s).isStringOutputEnabled = false
    ∧ (Logger.destruct s).stringOutputIds = []
    ∧ (Logger.destruct s).isJsonOutputEnabled = false
    ∧ (Logger.destruct s).jsonOutputIds = []
    ∧ (Logger.destruct s).jsonOutputsCount = 0
    ∧ (Logger.destruct s).loggers = s.loggers
    ∧ (∀ i, s.jsonOutputIds.count i = 1 → i < s.streams.length →
        (Logger.destruct s).streams.getD i [] = s.streams.getD i [] ++ str "]")
    ∧ (∀ i, i ∉ s.jsonOutputIds →
        (Logger.destruct s).streams.getD i [] = s.streams.getD i []) := by
  refine ⟨rfl, rfl, rfl, rfl, rfl, rfl, ?_, ?_⟩
  · intro i hc hlen
    exact getD_writeAll_count_one _ _ _ _ hc hlen
  · intro i hni
    exact getD_writeAll_not_mem _ _ _ _ hni

/-- Witness for C6 on a state with JSON enabled on stream 0. -/
theorem claim_C6_destructor_teardown_witness :
    (Logger.destruct (LogState.mk [LogLevel.WARN] [str "[x"] [] false [0] true 1)
        ).isStringOutputEnabled = false
    ∧ (Logger.destruct (LogState.mk [LogLevel.WARN] [str "[x"] [] false [0] true 1)
        ).jsonOutputsCount = 0
    ∧ (Logger.destruct (LogState.mk [LogLevel.WARN] [str "[x"] [] false [0] true 1)
        ).streams.getD 0 []
        = (LogState.mk [LogLevel.WARN] [str "[x"] [] false [0] true 1
            : LogState).streams.getD 0 [] ++ str "]" :=
  ⟨(claim_C6_destructor_teardown _).1,
   (claim_C6_destructor_teardown _).2.2.2.2.1,
   (claim_C6_destructor_teardown
      (LogState.mk [LogLevel.WARN] [str "[x"] [] false [0] true 1)
     ).2.2.2.2.2.2.1 0 (by decide) (by decide)⟩

/-- Claim C8: disabling a never-enabled (or already disabled) sink kind
is a no-op with the flag left false; disabling text output clears the
collection and writes nothing; re-enabling JSON output resets the
counter to 0, so the next record is rendered without a leading comma
(it starts with `{`, not `,`). -/
theorem claim_C8_disable_enable (s : LogState) (d : Nat) :
    ((Logger.disableStringOutput s).isStringOutputEnabled = false
      ∧ (Logger.disableStringOutput s).stringOutputIds = []
      ∧ (Logger.disableStringOutput s).streams = s.streams)
    ∧ (s.isStringOutputEnabled = false → s.stringOutputIds = [] →
        Logger.disableStringOutput s = s)
    ∧ ((Logger.disableJsonOutput s).isJsonOutputEnabled = false
      ∧ (s.jsonOutputIds = [] → s.isJsonOutputEnabled = false →
          s.jsonOutputsCount = 0 → Logger.disableJsonOutput s = s))
    ∧ (∀ sE, Logger.enableJsonOutput s d = some sE →
        sE.jsonOutputsCount = 0
        ∧ (∀ lvl st msg ts ex,
            Logger.renderJsonRecord sE.jsonOutputsCount lvl st msg ts ex
              = Logger.renderJsonObj lvl st msg ts ex
            ∧ (Logger.renderJsonRecord sE.jsonOutputsCount lvl st msg ts ex).take 1
              = [lbraceChar])) := by
  refine ⟨⟨rfl, rfl, rfl⟩, ?_, ⟨rfl, ?_⟩, ?_⟩
  · intro h1 h2
    obtain ⟨lg, stm, si, se, ji, je, jc⟩ := s
    simp only at h1 h2
    subst h1
    subst h2
    rfl
  · intro h1 h2 h3
    obtain ⟨lg, stm, si, se, ji, je, jc⟩ := s
    simp only at h1 h2 h3
    subst h1
    subst h2
    subst h3
    rfl
  · intro sE hE
    have hE2 := Option.some.inj hE
    subst hE2
    refine ⟨rfl, ?_⟩
    intro lvl st msg ts ex
    refine ⟨renderJsonRecord_zero lvl st msg ts ex, ?_⟩
    rw [renderJsonRecord_head]
    simp

/-- Witness for C8 on a fresh state. -/
theorem claim_C8_disable_enable_witness :
    (Logger.disableStringOutput (LogState.mk [] [[]] [] false [] false 0)
      = LogState.mk [] [[]] [] false [] false 0)
    ∧ (Logger.disableJsonOutput (LogState.mk [] [[]] [] false [] false 0)
      = LogState.mk [] [[]] [] false [] false 0)
    ∧ ∀ sE, Logger.enableJsonOutput (LogState.mk [] [[]] [] false [] false 0) 0
        = some sE → sE.jsonOutputsCount = 0 :=
  ⟨(claim_C8_disable_enable (LogState.mk [] [[]] [] false [] false 0) 0).2.1
      rfl rfl,
   (claim_C8_disable_enable (LogState.mk [] [[]] [] false [] false 0) 0).2.2.1.2
      rfl rfl rfl,
   fun sE hE =>
     ((claim_C8_disable_enable (LogState.mk [] [[]] [] false [] false 0) 0).2.2.2
       sE hE).1⟩

/-- Claim C9: `addStringOutput` / `addJsonOutput` fail their assertion
(modelled as `none`, i.e. process termination) exactly when the
corresponding output kind is not enabled; when it is enabled they
append the destination, `addJsonOutput` additionally writing `[` to the
new destination immediately. -/
theorem claim_C9_add_assertions (s : LogState) (d : Nat) :
    (s.isStringOutputEnabled = false → Logger.addStringOutput s d = none)
    ∧ (s.isStringOutputEnabled = true →
        ∃ sA, Logger.addStringOutput s d = some sA
          ∧ sA.stringOutputIds = s.stringOutputIds ++ [d]
          ∧ sA.streams = s.streams
          ∧ sA.isStringOutputEnabled = true)
    ∧ (s.isJsonOutputEnabled = false → Logger.addJsonOutput s d = none)
    ∧ (s.isJsonOutputEnabled = true →
        ∃ sA, Logger.addJsonOutput s d = some sA
          ∧ sA.jsonOutputIds = s.jsonOutputIds ++ [d]
          ∧ (d < s.streams.length →
              sA.streams.getD d [] = s.streams.getD d [] ++ str "[")
          ∧ (∀ i, d ≠ i → sA.streams.getD i [] = s.streams.getD i [])
          ∧ sA.isJsonOutputEnabled = true) := by
  refine ⟨?_, ?_, ?_, ?_⟩
  · intro h
    unfold Logger.addStringOutput
    rw [if_neg (by simp [h])]
  · intro h
    unfold Logger.addStringOutput
    rw [if_pos h]
    exact ⟨_, rfl, rfl, rfl, h⟩
  · intro h
    unfold Logger.addJsonOutput
    rw [if_neg (by simp [h])]
  · intro h
    unfold Logger.addJsonOutput
    rw [if_pos h]
    refine ⟨_, rfl, rfl, ?_, ?_, h⟩
    · intro hlen
      exact getD_writeTo_self s.streams d (str "[") hlen
    · intro i hne
      exact getD_writeTo_ne s.streams d i (str "[") hne

/-- Witness for C9: adding before enabling fails; after enabling it
appends and opens the array. -/
theorem claim_C9_add_assertions_witness :
    Logger.addStringOutput (LogState.mk [] [[]] [] false [] false 0) 0 = none
    ∧ Logger.addJsonOutput (LogState.mk [] [[]] [] false [] false 0) 0 = none
    ∧ ∃ sA, Logger.addJsonOutput (LogState.mk [] [[]] [] false [] true 0) 0
        = some sA
      ∧ sA.jsonOutputIds
          = (LogState.mk [] [[]] [] false [] true 0 : LogState).jsonOutputIds ++ [0]
      ∧ (0 < (LogState.mk [] [[]] [] false [] true 0 : LogState).streams.length →
          sA.streams.getD 0 []
            = (LogState.mk [] [[]] [] false [] true 0
                : LogState).streams.getD 0 [] ++ str "[")
      ∧ (∀ i, 0 ≠ i → sA.streams.getD i []
          = (LogState.mk [] [[]] [] false [] true 0 : LogState).streams.getD i [])
      ∧ sA.isJsonOutputEnabled = true :=
  ⟨(claim_C9_add_assertions (LogState.mk [] [[]] [] false [] false 0) 0).1 rfl,
   (claim_C9_add_assertions (LogState.mk [] [[]] [] false [] false 0) 0).2.2.1 rfl,
   (claim_C9_add_assertions (LogState.mk [] [[]] [] false [] true 0) 0).2.2.2 rfl⟩



lemma textExtras_mem_split (sepLines : Bool) (name : List Char)
    (extras : List (List Char)) (e : List Char) (he : e ∈ extras) :
    ∃ u v, Logger.textExtras sepLines name extras = u ++ e ++ v := by
  induction extras with
  | nil => simp at he
  | cons a rest ih =>
    rcases List.mem_cons.mp he with h | h
    · subst h
      refine ⟨(if sepLines then
          str "\n" ++ List.replicate (name.length + 3) ' ' ++ str "- "
        else str " "), str " ;" ++ Logger.textExtras sepLines name rest, ?_⟩
      simp [Logger.textExtras, List.append_assoc]
    · obtain ⟨u, v, hu⟩ := ih h
      refine ⟨((if sepLines then
          str "\n" ++ List.replicate (name.length + 3) ' ' ++ str "- "
        else str " ") ++ a ++ str " ;") ++ u, v, ?_⟩
      simp only [Logger.textExtras, List.map_cons, List.flatten_cons] at hu ⊢
      rw [hu]
      simp [List.append_assoc]

lemma renderTextRecord_decomp (sepLines : Bool) (lvl : LogLevel) (st : Bool)
    (ts fp : List Char) (ln : Int) (msg : List Char) (ex : List (List Char)) :
    ∃ a b, Logger.renderTextRecord sepLines lvl st ts fp ln msg ex
        = a ++ msg ++ b
      ∧ b = (if ex ≠ [] then
              str " - EXTRAS " ++ (if sepLines then str ":" else str "- ")
            else [])
          ++ Logger.textExtras sepLines (getLogLevelName lvl true) ex
          ++ str "\n" := by
  refine ⟨str "[" ++ getLogLevelName lvl true ++ str "] "
      ++ (if st then ts ++ str " - " else [])
      ++ (if fp ≠ [] then fp ++ str " " else [])
      ++ (if ln ≠ -1 then str "(line " ++ Logger.intChars ln ++ str ") " else [])
      ++ (if fp ≠ [] ∨ ln ≠ -1 then str "- " else []), _, ?_, rfl⟩
  simp [Logger.renderTextRecord, Logger.textExtras, List.append_assoc]

/-- Claim C7: for an accepted call, JSON output is built from escaped
copies (every `"` replaced by `'`, length and all other characters
preserved; the escaped copy holds no `"` at all), the same escaped
record being appended to every JSON destination of the call, while the
text output embeds the raw message and raw extras verbatim. -/
theorem claim_C7_escaping (ndebugMode sepLines : Bool) (s : LogState)
    (givenLogLevel : LogLevel) (message : List Char) (extras : List (List Char))
    (filePath : List Char) (lineNumber : Int) (showTimestamp : Bool)
    (ts : List Char) (threshold : LogLevel)
    (hthr : Logger.getLogLevel ndebugMode s.loggers = some threshold)
    (hpass : threshold.enumVal ≤ givenLogLevel.enumVal) :
    ∃ s2, Logger.log ndebugMode sepLines s givenLogLevel message extras
        filePath lineNumber showTimestamp ts = some s2
      ∧ (s.isJsonOutputEnabled = true → ∃ rec,
          rec = Logger.renderJsonRecord s.jsonOutputsCount givenLogLevel
              showTimestamp (Logger.escapeString message) ts
              (extras.map Logger.escapeString)
          ∧ ∀ i, i ∉ s.stringOutputIds → s.jsonOutputIds.count i = 1 →
              i < s.streams.length →
              s2.streams.getD i [] = s.streams.getD i [] ++ rec)
      ∧ (Logger.escapeString message).length = message.length
      ∧ (∀ k, (Logger.escapeString message).getD k ' '
            = (if message.getD k ' ' = quoteChar then apostropheChar
               else message.getD k ' '))
      ∧ (Logger.escapeString message).count quoteChar = 0
      ∧ (s.isStringOutputEnabled = true → ∀ i, s.stringOutputIds.count i = 1 →
          i ∉ s.jsonOutputIds → i < s.streams.length →
          ∃ a b, s2.streams.getD i []
              = s.streams.getD i [] ++ (a ++ message ++ b)
            ∧ ∀ e ∈ extras, ∃ u v, b = u ++ e ++ v) := by
  obtain ⟨s2, hlog, _, _, _, _, _, _, _, htext, hjson, _, _, _⟩ :=
    log_accepted ndebugMode sepLines s givenLogLevel message extras filePath
      lineNumber showTimestamp ts threshold hthr hpass
  refine ⟨s2, hlog, ?_, ?_, ?_, ?_, ?_⟩
  · intro hJ
    exact ⟨_, rfl, fun i hns hc hlen => hjson hJ i hns hc hlen⟩
  · simp [Logger.escapeString]
  · intro k
    by_cases hk : k < message.length
    · rw [List.getD_eq_getElem?_getD, List.getD_eq_getElem?_getD]
      simp only [Logger.escapeString]
      rw [List.getElem?_map]
      cases hm : message[k]? with
      | none =>
        have hsp : ¬ ((' ' : Char) = quoteChar) := by decide
        simp [hm, hsp]
      | some c => simp [hm]
    · have h1 : message.length ≤ k := by omega
      have h2 : (Logger.escapeString message).length ≤ k := by
        simpa [Logger.escapeString] using h1
      rw [List.getD_eq_getElem?_getD, List.getD_eq_getElem?_getD,
        List.getElem?_eq_none h1, List.getElem?_eq_none h2]
      have : ¬ ((' ' : Char) = quoteChar) := by decide
      simp [this]
  · rw [List.count_eq_zero]
    intro hmem
    obtain ⟨c, _, hc⟩ := List.mem_map.mp hmem
    by_cases h : c = quoteChar
    · rw [if_pos h] at hc
      exact absurd hc (by decide)
    · rw [if_neg h] at hc
      exact h hc
  · intro hS i hc hnj hlen
    obtain ⟨a, b, hab, hb⟩ := renderTextRecord_decomp sepLines givenLogLevel
      showTimestamp ts filePath lineNumber message extras
    refine ⟨a, b, ?_, ?_⟩
    · rw [htext hS i hc hnj hlen, hab]
    · intro e he
      obtain ⟨u, v, huv⟩ := textExtras_mem_split sepLines
        (getLogLevelName givenLogLevel true) extras e he
      exact ⟨(if extras ≠ [] then
          str " - EXTRAS " ++ (if sepLines then str ":" else str "- ")
        else []) ++ u, v ++ str "\n", by rw [hb, huv]; simp [List.append_assoc]⟩



/-- Witness for C7: logger at `DEBUG`, JSON enabled on stream 0, text
disabled, message containing a quote. -/
theorem claim_C7_escaping_witness :
    ∃ s2, Logger.log false false
        (LogState.mk [LogLevel.DEBUG] [str "["] [] false [0] true 0)
        LogLevel.INFO (str "a\"b") [] [] (-1) true (str "T") = some s2
      ∧ ((LogState.mk [LogLevel.DEBUG] [str "["] [] false [0] true 0
            : LogState).isJsonOutputEnabled = true → ∃ rec,
          rec = Logger.renderJsonRecord
              (LogState.mk [LogLevel.DEBUG] [str "["] [] false [0] true 0
                : LogState).jsonOutputsCount LogLevel.INFO
              true (Logger.escapeString (str "a\"b")) (str "T")
              (List.map Logger.escapeString [])
          ∧ ∀ i, i ∉ (LogState.mk [LogLevel.DEBUG] [str "["] [] false [0] true 0
                : LogState).stringOutputIds →
              (LogState.mk [LogLevel.DEBUG] [str "["] [] false [0] true 0
                : LogState).jsonOutputIds.count i = 1 →
              i < (LogState.mk [LogLevel.DEBUG] [str "["] [] false [0] true 0
                : LogState).streams.length →
              s2.streams.getD i []
                = (LogState.mk [LogLevel.DEBUG] [str "["] [] false [0] true 0
                    : LogState).streams.getD i [] ++ rec)
      ∧ (Logger.escapeString (str "a\"b")).length = (str "a\"b").length
      ∧ (∀ k, (Logger.escapeString (str "a\"b")).getD k ' '
            = (if (str "a\"b").getD k ' ' = quoteChar then apostropheChar
               else (str "a\"b").getD k ' '))
      ∧ (Logger.escapeString (str "a\"b")).count quoteChar = 0
      ∧ ((LogState.mk [LogLevel.DEBUG] [str "["] [] false [0] true 0
            : LogState).isStringOutputEnabled = true →
          ∀ i, (LogState.mk [LogLevel.DEBUG] [str "["] [] false [0] true 0
              : LogState).stringOutputIds.count i = 1 →
            i ∉ (LogState.mk [LogLevel.DEBUG] [str "["] [] false [0] true 0
              : LogState).jsonOutputIds →
            i < (LogState.mk [LogLevel.DEBUG] [str "["] [] false [0] true 0
              : LogState).streams.length →
            ∃ a b, s2.streams.getD i []
                = (LogState.mk [LogLevel.DEBUG] [str "["] [] false [0] true 0
                    : LogState).streams.getD i [] ++ (a ++ str "a\"b" ++ b)
              ∧ ∀ e ∈ ([] : List (List Char)), ∃ u v, b = u ++ e ++ v) :=
  claim_C7_escaping false false
    (LogState.mk [LogLevel.DEBUG] [str "["] [] false [0] true 0)
    LogLevel.INFO (str "a\"b") [] [] (-1) true (str "T") LogLevel.DEBUG
    (by decide) (by decide)

end TinyLog
